import Mathlib

/-!
Verification development for the instrumentation-interception core of the
New Relic Node.js agent: a shallow embedding of the instrumentation registry
(`registerInstrumentation` over the prototype-less `pkgs` table), the ESM
loader hooks (`resolve`, `load`, `wrapEsmSource`), and the context-manager
factory (`createContextManager`), together with theorems about them.

JavaScript values are embedded as follows: machine state is passed
explicitly, JS `Map`s and plain objects become association lists over
`String` keys, absent values become `Option`, and JS truthiness of the
relevant values (`undefined` vs. object/array/function) becomes `Option.isSome`.
Hook callbacks are opaque payloads of a type parameter `η`.
-/

/-- Association-list read, mirroring `Map.prototype.get` / JS own-property read:
the first entry whose key matches wins. -/
def assocGet {α : Type} : List (String × α) → String → Option α
  | [], _ => none
  | (k, v) :: t, key => if k = key then some v else assocGet t key

/-- Association-list write, mirroring `Map.prototype.set` / JS property write:
an existing key is updated in place, a new key is appended at the end. -/
def assocSet {α : Type} : List (String × α) → String → α → List (String × α)
  | [], key, v => [(key, v)]
  | (k, w) :: t, key, v => if k = key then (key, v) :: t else (k, w) :: assocSet t key v

/-- One instrumentation registration (`InstrumentationDescriptor`): a module
name plus optional `onRequire` / `onResolved` hooks, hook payloads drawn from
an opaque type `η`. -/
structure InstrumentationOpts (η : Type) where
  moduleName : String
  onRequire : Option η
  onResolved : Option η
  deriving DecidableEq

/-- A JavaScript property value as stored on the registry object: either an
array of instrumentation descriptors (what `registerInstrumentation` writes)
or a built-in function (what `Object.prototype` would contribute on an object
that, unlike `pkgs`, has a prototype). -/
inductive JsValue (η : Type) where
  | arr (ds : List (InstrumentationOpts η))
  | fn (name : String)
  deriving DecidableEq

/-- A JavaScript object as used for the registry table: own properties plus a
(one-level) prototype's properties. Property reads consult own properties
first, then the prototype. -/
structure JsObj (η : Type) where
  proto : List (String × JsValue η)
  own : List (String × JsValue η)
  deriving DecidableEq

/-- JS property read `o[k]`: own property if present, otherwise the prototype
chain; `none` models `undefined`. -/
def getProp {η : Type} (o : JsObj η) (k : String) : Option (JsValue η) :=
  match assocGet o.own k with
  | some v => some v
  | none => assocGet o.proto k

/-- JS property write `o[k] = v`: always creates/updates an own property. -/
def setProp {η : Type} (o : JsObj η) (k : String) (v : JsValue η) : JsObj η :=
  { proto := o.proto, own := assocSet o.own k v }

/-- Model of `Object.create(null)`: an object with no prototype. -/
def objectCreateNull (η : Type) : JsObj η := { proto := [], own := [] }

/-- The registry table: `const pkgs = Object.create(null)`. -/
def pkgs (η : Type) : JsObj η := objectCreateNull η

/-- Validation from the source's `hasValidRegisterOptions`: options must be
present, `moduleName` must be truthy (non-empty), and at least one of
`onRequire` / `onResolved` must be present. -/
def hasValidRegisterOptions {η : Type} (opts : Option (InstrumentationOpts η)) : Bool :=
  match opts with
  | none => false
  | some o =>
    if o.moduleName = "" then false
    else if o.onRequire.isNone && o.onResolved.isNone then false
    else true

/-- The source's `registerInstrumentation(opts)`: drop invalid options;
otherwise ensure `pkgs[opts.moduleName]` is an array and push a copy of the
options onto it. The `(JsValue.fn _)` fallthrough arm is unreachable on the
actual prototype-less `pkgs` table (where every stored value is an array). -/
def registerInstrumentation {η : Type} (opts : Option (InstrumentationOpts η))
    (p : JsObj η) : JsObj η :=
  if hasValidRegisterOptions opts then
    match opts with
    | none => p
    | some o =>
      let p1 :=
        match getProp p o.moduleName with
        | none => setProp p o.moduleName (JsValue.arr [])
        | some _ => p
      match getProp p1 o.moduleName with
      | some (JsValue.arr ds) => setProp p1 o.moduleName (JsValue.arr (ds ++ [o]))
      | _ => p1
  else p

/-- The Registry's `lookup(moduleName)`: the ordered sequence of descriptors
registered against that name, empty if none. -/
def lookupInstrumentation {η : Type} (p : JsObj η) (name : String) :
    List (InstrumentationOpts η) :=
  match getProp p name with
  | some (JsValue.arr ds) => ds
  | _ => []

/-- Is a stored property value an array of descriptors? -/
def isArrVal {η : Type} : JsValue η → Bool
  | JsValue.arr _ => true
  | JsValue.fn _ => false

/-- Well-formedness invariant of the registry table as the program maintains
it: no prototype, and every own property holds an array of descriptors. -/
def wfRegistry {η : Type} (p : JsObj η) : Bool :=
  p.proto.isEmpty && p.own.all (fun kv => isArrVal kv.2)

/-- The registry built by a sequence of `registerInstrumentation` calls
starting from the freshly created `pkgs` table. -/
def buildRegistry (η : Type) (calls : List (Option (InstrumentationOpts η))) : JsObj η :=
  calls.foldl (fun p o => registerInstrumentation o p) (pkgs η)

/-- Character-list prefix test (`true` when the first list heads the second). -/
def isPrefixChars : List Char → List Char → Bool
  | [], _ => true
  | _ :: _, [] => false
  | a :: as, b :: bs => a = b && isPrefixChars as bs

/-- Character-list substring test: does `needle` occur contiguously in `hay`? -/
def occursIn (needle : List Char) : List Char → Bool
  | [] => isPrefixChars needle []
  | b :: bs => isPrefixChars needle (b :: bs) || occursIn needle bs

/-- Model of JS `String.prototype.includes`. -/
def strIncludes (hay needle : String) : Bool :=
  occursIn needle.data hay.data

/-- Resolution context passed to the `resolve` hook; only `parentURL` is
consulted by this component. -/
structure ResolveContext where
  parentURL : Option String
  deriving DecidableEq

/-- The source's `isFromEsmLoader(context)`: the request originates from this
interceptor's own bootstrap file. `context && context.parentURL &&
context.parentURL.includes(…)`. -/
def isFromEsmLoader (context : Option ResolveContext) : Bool :=
  match context with
  | none => false
  | some c =>
    match c.parentURL with
    | none => false
    | some p => strIncludes p "newrelic/esm-loader.mjs"

/-- Model of Node's `url.fileURLToPath` as used here: strips the `file://`
scheme prefix from a URL, yielding the filesystem path. -/
def fileURLToPath (url : String) : String :=
  if String.isPrefixOf "file://" url then url.drop 7 else url

/-- The record produced by the next resolver in the chain: resolved URL plus
format classification (`"module"`, `"commonjs"`, `"builtin"`, …). -/
structure ResolvedModule where
  url : String
  format : String
  deriving DecidableEq

/-- A Resolution Record: one entry of the `registeredSpecifiers` map, keyed by
resolved URL. -/
structure SpecifierRecord where
  specifier : String
  hasNrInstrumentation : Bool
  deriving DecidableEq

/-- The payload of the fire-and-forget `preloadPort.postMessage({ details })`
call: `{ specifier, resolvedModule, filePath }`. -/
structure PostedMessage where
  specifier : String
  resolvedModule : ResolvedModule
  filePath : String
  deriving DecidableEq

/-- Everything the `resolve` hook produces: its return value, the updated
`registeredSpecifiers` map, and the messages posted to the main thread. -/
structure ResolveOutcome where
  result : ResolvedModule
  registeredSpecifiers : List (String × SpecifierRecord)
  postedMessages : List PostedMessage
  deriving DecidableEq

/-- The ESM loader's `resolve(specifier, context, nextResolve)` hook.
`agent` is the truthiness of `newrelic.agent`, `supported` the result of
`isSupportedVersion()`, `getInstrumentationName` is shimmer's
`getInstrumentationNameFromModuleName`, `registry` is shimmer's registration
table, `nextResolveResult` the record returned by `nextResolve`, and
`registeredSpecifiers` the current Resolution Record map. -/
def resolve (η : Type) (agent supported : Bool) (context : Option ResolveContext)
    (getInstrumentationName : String → String) (registry : JsObj η)
    (specifier : String) (nextResolveResult : ResolvedModule)
    (registeredSpecifiers : List (String × SpecifierRecord)) : ResolveOutcome :=
  if !agent || !supported || isFromEsmLoader context then
    { result := nextResolveResult
      registeredSpecifiers := registeredSpecifiers
      postedMessages := [] }
  else if (assocGet registeredSpecifiers nextResolveResult.url).isSome then
    { result := nextResolveResult
      registeredSpecifiers := registeredSpecifiers
      postedMessages := [] }
  else if nextResolveResult.format = "module" then
    if (getProp registry (getInstrumentationName specifier)).isSome then
      { result := nextResolveResult
        registeredSpecifiers :=
          assocSet registeredSpecifiers nextResolveResult.url
            { specifier := specifier, hasNrInstrumentation := true }
        postedMessages := [] }
    else
      { result := nextResolveResult
        registeredSpecifiers := registeredSpecifiers
        postedMessages := [] }
  else if nextResolveResult.format = "commonjs" then
    { result := nextResolveResult
      registeredSpecifiers := registeredSpecifiers
      postedMessages :=
        [{ specifier := specifier
           resolvedModule := nextResolveResult
           filePath := fileURLToPath nextResolveResult.url }] }
  else
    { result := nextResolveResult
      registeredSpecifiers := registeredSpecifiers
      postedMessages := [] }

/-- First line of the rewritten source produced by `wrapEsmSource`:
the Export Shim import. -/
def shimImportLine (esmShimHref : String) : String :=
  "\n    import wrapModule from \x27" ++ esmShimHref ++ "\x27"

/-- Second line of the rewritten source: the original module import under the
internal alias `_originalModule`. -/
def originalImportLine (url : String) : String :=
  "\n    import * as _originalModule from \x27" ++ url ++ "\x27"

/-- Third line of the rewritten source: construction of the shimmed wrapper,
passing the specifier and the trimmed file path for attribution. -/
def wrapModuleCallLine (specifier trimmedUrl : String) : String :=
  "\n    const _wrappedModule = wrapModule(_originalModule, \x27" ++ specifier
    ++ "\x27, \x27" ++ trimmedUrl ++ "\x27)\n    "

/-- One forwarding export binding generated per export name of the original
module: `let _p = _wrappedModule.p` followed by `export { _p as p }`. -/
def forwardingExport (propName : String) : String :=
  "\n    let _" ++ propName ++ " = _wrappedModule." ++ propName
    ++ "\n    export \x7b _" ++ propName ++ " as " ++ propName ++ " \x7d"

/-- The source's `wrapEsmSource(url, specifier)` template. `exportNames` is
`Object.keys(pkg)` of the dynamically imported original module (the read-only
probe load used to enumerate its export names). -/
def wrapEsmSource (esmShimHref : String) (exportNames : List String)
    (url specifier : String) : String :=
  shimImportLine esmShimHref ++ originalImportLine url
    ++ wrapModuleCallLine specifier (fileURLToPath url)
    ++ String.intercalate "\n" (exportNames.map forwardingExport) ++ "\n  "

/-- The value returned by a `load` hook: format, source text, and the
short-circuit flag. The delegated (`nextLoad`) result is also of this shape. -/
structure LoadResult where
  format : String
  source : String
  shortCircuit : Bool
  deriving DecidableEq

/-- The ESM loader's `load(url, context, nextLoad)` hook. `nextLoadResult` is
the result the next loader in the chain would produce, `esmShimHref` is
`esmShimPath.href`, and `exportNames` enumerates the original module's
exports as discovered by the probe load inside `wrapEsmSource`. -/
def load (agent supported : Bool)
    (registeredSpecifiers : List (String × SpecifierRecord))
    (esmShimHref : String) (exportNames : List String)
    (url : String) (nextLoadResult : LoadResult) : LoadResult :=
  if !agent || !supported then nextLoadResult
  else
    match assocGet registeredSpecifiers url with
    | none => nextLoadResult
    | some seenUrl =>
      if !seenUrl.hasNrInstrumentation then nextLoadResult
      else
        { format := "module"
          source := wrapEsmSource esmShimHref exportNames url seenUrl.specifier
          shortCircuit := true }

/-- The classification a URL currently has in the Resolution Record table:
`true` exactly when a record marked "has instrumentation" is present. -/
def hasInstrumentationClass (registeredSpecifiers : List (String × SpecifierRecord))
    (url : String) : Bool :=
  match assocGet registeredSpecifiers url with
  | some r => r.hasNrInstrumentation
  | none => false

/-- The two Context Manager implementations selectable at startup. -/
inductive ContextManager where
  | asyncLocalContextManager
  | legacyContextManager
  deriving DecidableEq

/-- The `feature_flag` section of the agent configuration. -/
structure FeatureFlagConfig where
  new_async_context : Bool
  deriving DecidableEq

/-- The agent configuration as consulted by `createContextManager`. -/
structure AgentConfig where
  feature_flag : FeatureFlagConfig
  deriving DecidableEq

/-- The source's `createContextManager(config)` factory. -/
def createContextManager (config : AgentConfig) : ContextManager :=
  if config.feature_flag.new_async_context then ContextManager.asyncLocalContextManager
  else ContextManager.legacyContextManager

theorem assocGet_assocSet_self {α : Type} (l : List (String × α)) (k : String) (v : α) :
    assocGet (assocSet l k v) k = some v := by
  induction l with
  | nil => simp [assocGet, assocSet]
  | cons h t ih =>
    obtain ⟨k2, w⟩ := h
    by_cases hk : k2 = k <;> simp [assocGet, assocSet, hk, ih]

theorem assocGet_assocSet_other {α : Type} (l : List (String × α)) (k k' : String) (v : α)
    (h : k' ≠ k) : assocGet (assocSet l k v) k' = assocGet l k' := by
  have h2 : ¬(k = k') := fun hh => h hh.symm
  induction l with
  | nil => simp [assocGet, assocSet, h2]
  | cons hd t ih =>
    obtain ⟨k2, w⟩ := hd
    by_cases hk : k2 = k
    · subst hk
      simp [assocGet, assocSet, h2]
    · simp [assocGet, assocSet, hk, ih]

theorem assocGet_mem {α : Type} {l : List (String × α)} {key : String} {v : α}
    (h : assocGet l key = some v) : (key, v) ∈ l := by
  induction l with
  | nil => simp [assocGet] at h
  | cons hd t ih =>
    obtain ⟨k2, w⟩ := hd
    by_cases hk : k2 = key
    · subst hk
      simp [assocGet] at h
      simp [h]
    · simp [assocGet, hk] at h
      exact List.mem_cons_of_mem _ (ih h)

theorem getProp_of_proto_nil {η : Type} {p : JsObj η} (h : p.proto = []) (k : String) :
    getProp p k = assocGet p.own k := by
  unfold getProp
  cases hm : assocGet p.own k <;> simp [h, assocGet]

theorem wfRegistry_proto_nil {η : Type} {p : JsObj η} (h : wfRegistry p = true) :
    p.proto = [] := by
  unfold wfRegistry at h
  simp only [Bool.and_eq_true, List.isEmpty_iff] at h
  exact h.1

theorem wfRegistry_getProp_arr {η : Type} {p : JsObj η} {k : String} {v : JsValue η}
    (hwf : wfRegistry p = true) (h : getProp p k = some v) :
    ∃ ds, v = JsValue.arr ds := by
  unfold wfRegistry at hwf
  simp only [Bool.and_eq_true, List.isEmpty_iff, List.all_eq_true] at hwf
  rw [getProp_of_proto_nil hwf.1] at h
  have hmem := assocGet_mem h
  have := hwf.2 _ hmem
  cases v with
  | arr ds => exact ⟨ds, rfl⟩
  | fn n => simp [isArrVal] at this

theorem registerInstrumentation_invalid {η : Type} (opts : Option (InstrumentationOpts η))
    (p : JsObj η) (h : hasValidRegisterOptions opts = false) :
    registerInstrumentation opts p = p := by
  unfold registerInstrumentation
  simp [h]

theorem registerInstrumentation_shape {η : Type} (d : InstrumentationOpts η) (p : JsObj η) :
    registerInstrumentation (some d) p = p ∨
    (∃ ds, registerInstrumentation (some d) p = setProp p d.moduleName (JsValue.arr ds)) ∨
    (∃ ds, registerInstrumentation (some d) p
        = setProp (setProp p d.moduleName (JsValue.arr [])) d.moduleName (JsValue.arr ds)) := by
  unfold registerInstrumentation
  cases hv : hasValidRegisterOptions (some d) with
  | false => left; simp
  | true =>
    cases hg : getProp p d.moduleName with
    | none =>
      cases hg1 : getProp (setProp p d.moduleName (JsValue.arr [])) d.moduleName with
      | none => right; left; exact ⟨[], by simp [hv, hg, hg1]⟩
      | some v =>
        cases v with
        | arr ds => right; right; exact ⟨ds ++ [d], by simp [hv, hg, hg1]⟩
        | fn n => right; left; exact ⟨[], by simp [hv, hg, hg1]⟩
    | some v =>
      cases v with
      | arr ds => right; left; exact ⟨ds ++ [d], by simp [hv, hg]⟩
      | fn n => left; simp [hv, hg]

theorem getProp_setProp_other {η : Type} (q : JsObj η) (k name : String) (v : JsValue η)
    (hne : k ≠ name) : getProp (setProp q k v) name = getProp q name := by
  unfold getProp setProp
  rw [assocGet_assocSet_other _ _ _ _ (fun hh => hne hh.symm)]

theorem getProp_setProp_self {η : Type} (q : JsObj η) (k : String) (v : JsValue η)
    (hproto : q.proto = []) : getProp (setProp q k v) k = some v := by
  rw [getProp_of_proto_nil (by simp [setProp, hproto])]
  exact assocGet_assocSet_self _ _ _

theorem registerInstrumentation_other {η : Type} (opts : Option (InstrumentationOpts η))
    (p : JsObj η) (name : String)
    (h : ∀ d, opts = some d → d.moduleName ≠ name) :
    getProp (registerInstrumentation opts p) name = getProp p name := by
  cases opts with
  | none =>
    rw [registerInstrumentation_invalid _ _ (by simp [hasValidRegisterOptions])]
  | some d =>
    have hne : d.moduleName ≠ name := h d rfl
    rcases registerInstrumentation_shape d p with hr | ⟨ds, hr⟩ | ⟨ds, hr⟩ <;> rw [hr]
    · rw [getProp_setProp_other _ _ _ _ hne]
    · rw [getProp_setProp_other _ _ _ _ hne, getProp_setProp_other _ _ _ _ hne]

theorem wfRegistry_setProp_arr {η : Type} (q : JsObj η) (k : String)
    (ds : List (InstrumentationOpts η)) (hq : wfRegistry q = true) :
    wfRegistry (setProp q k (JsValue.arr ds)) = true := by
  unfold wfRegistry at hq ⊢
  simp only [Bool.and_eq_true, List.isEmpty_iff, List.all_eq_true] at hq ⊢
  refine ⟨by simpa [setProp] using hq.1, ?_⟩
  have haux : ∀ (l : List (String × JsValue η)),
      (∀ x ∈ l, isArrVal x.2 = true) → ∀ kv ∈ assocSet l k (JsValue.arr ds),
      isArrVal kv.2 = true := by
    intro l
    induction l with
    | nil =>
      intro _ kv hm
      simp [assocSet] at hm
      simp [hm, isArrVal]
    | cons hd t ih =>
      obtain ⟨k2, w⟩ := hd
      intro hall kv hm
      by_cases hk : k2 = k
      · simp [assocSet, hk] at hm
        rcases hm with hm | hm
        · simp [hm, isArrVal]
        · exact hall _ (List.mem_cons_of_mem _ hm)
      · simp [assocSet, hk] at hm
        rcases hm with hm | hm
        · exact hall _ (by simp [hm])
        · exact ih (fun x hx => hall x (List.mem_cons_of_mem _ hx)) _ hm
  exact haux q.own hq.2

theorem registerInstrumentation_wf {η : Type} (opts : Option (InstrumentationOpts η))
    (p : JsObj η) (hwf : wfRegistry p = true) :
    wfRegistry (registerInstrumentation opts p) = true := by
  cases opts with
  | none =>
    rw [registerInstrumentation_invalid _ _ (by simp [hasValidRegisterOptions])]
    exact hwf
  | some d =>
    rcases registerInstrumentation_shape d p with hr | ⟨ds, hr⟩ | ⟨ds, hr⟩ <;> rw [hr]
    · exact hwf
    · exact wfRegistry_setProp_arr _ _ _ hwf
    · exact wfRegistry_setProp_arr _ _ _ (wfRegistry_setProp_arr _ _ _ hwf)

theorem registerInstrumentation_append {η : Type} (p : JsObj η) (d : InstrumentationOpts η)
    (hwf : wfRegistry p = true) (hv : hasValidRegisterOptions (some d) = true) :
    lookupInstrumentation (registerInstrumentation (some d) p) d.moduleName
      = lookupInstrumentation p d.moduleName ++ [d] := by
  have hproto : p.proto = [] := wfRegistry_proto_nil hwf
  unfold registerInstrumentation
  cases hg : getProp p d.moduleName with
  | none =>
    have hg1 : getProp (setProp p d.moduleName (JsValue.arr [])) d.moduleName
        = some (JsValue.arr []) := getProp_setProp_self _ _ _ hproto
    have hg2 : getProp (setProp (setProp p d.moduleName (JsValue.arr [])) d.moduleName
        (JsValue.arr [d])) d.moduleName = some (JsValue.arr [d]) :=
      getProp_setProp_self _ _ _ (by simp [setProp, hproto])
    simp only [hv, if_true]
    unfold lookupInstrumentation
    simp [hg, hg1, hg2]
  | some v =>
    obtain ⟨ds, rfl⟩ := wfRegistry_getProp_arr hwf hg
    have hg2 : getProp (setProp p d.moduleName (JsValue.arr (ds ++ [d]))) d.moduleName
        = some (JsValue.arr (ds ++ [d])) := getProp_setProp_self _ _ _ hproto
    simp only [hv, if_true]
    unfold lookupInstrumentation
    simp [hg, hg2]

theorem lookupInstrumentation_other {η : Type} (opts : Option (InstrumentationOpts η))
    (p : JsObj η) (name : String)
    (h : ∀ d, opts = some d → d.moduleName ≠ name) :
    lookupInstrumentation (registerInstrumentation opts p) name
      = lookupInstrumentation p name := by
  unfold lookupInstrumentation
  rw [registerInstrumentation_other opts p name h]

theorem wfRegistry_pkgs (η : Type) : wfRegistry (pkgs η) = true := by
  simp [wfRegistry, pkgs, objectCreateNull]

theorem foldl_register_wf {η : Type} (calls : List (Option (InstrumentationOpts η)))
    (p : JsObj η) (h : wfRegistry p = true) :
    wfRegistry (calls.foldl (fun q o => registerInstrumentation o q) p) = true := by
  induction calls generalizing p with
  | nil => exact h
  | cons o t ih => exact ih _ (registerInstrumentation_wf o p h)

theorem buildRegistry_wf {η : Type} (calls : List (Option (InstrumentationOpts η))) :
    wfRegistry (buildRegistry η calls) = true :=
  foldl_register_wf calls _ (wfRegistry_pkgs η)

theorem foldl_register_untouched {η : Type} (calls : List (Option (InstrumentationOpts η)))
    (p : JsObj η) (name : String)
    (h : ∀ d, some d ∈ calls → hasValidRegisterOptions (some d) = true → d.moduleName ≠ name) :
    getProp (calls.foldl (fun q o => registerInstrumentation o q) p) name = getProp p name := by
  induction calls generalizing p with
  | nil => rfl
  | cons o t ih =>
    have hstep : getProp (registerInstrumentation o p) name = getProp p name := by
      cases hval : hasValidRegisterOptions o with
      | false => rw [registerInstrumentation_invalid _ _ hval]
      | true =>
        cases o with
        | none => simp [hasValidRegisterOptions] at hval
        | some d =>
          exact registerInstrumentation_other _ _ _
            (fun d2 hd2 => by
              cases hd2
              exact h d (by simp) hval)
    rw [List.foldl_cons]
    rw [ih _ (fun d hd hvd => h d (List.mem_cons_of_mem _ hd) hvd), hstep]

theorem buildRegistry_unregistered {η : Type} (calls : List (Option (InstrumentationOpts η)))
    (name : String)
    (h : ∀ d, some d ∈ calls → hasValidRegisterOptions (some d) = true → d.moduleName ≠ name) :
    getProp (buildRegistry η calls) name = none := by
  unfold buildRegistry
  rw [foldl_register_untouched calls _ name h]
  simp [pkgs, objectCreateNull, getProp, assocGet]

theorem forwardingExport_injective : Function.Injective forwardingExport := by
  intro p q h
  have hlen : p.length = q.length := by
    have hl := congrArg String.length h
    simp only [forwardingExport, String.length_append] at hl
    omega
  have hd := congrArg String.data h
  simp only [forwardingExport, String.data_append, List.append_assoc] at hd
  have hd2 := List.append_cancel_left hd
  have hpq := List.append_inj hd2 hlen
  exact String.ext hpq.1

/-- Claim C4: for every specifier and resolution context, the `resolve` hook
returns exactly the resolved module record produced by the next resolver in
the chain, unmodified, on every control path — it never alters resolution
results, only observes them. -/
theorem resolve_returns_next_resolver_result {η : Type} (agent supported : Bool)
    (context : Option ResolveContext) (getName : String → String) (registry : JsObj η)
    (specifier : String) (nextResult : ResolvedModule)
    (recs : List (String × SpecifierRecord)) :
    (resolve η agent supported context getName registry specifier nextResult recs).result
      = nextResult := by
  unfold resolve
  repeat' split
  all_goals rfl

/-- Claim C5: whenever the agent is absent or the runtime version is
unsupported, both the `resolve` hook and the `load` hook delegate to the next
hook in the chain and return its result unchanged, with the Resolution Record
table left untouched and no message posted; the conclusion holds for every
registry and record table, so neither is consulted. -/
theorem passthrough_when_disabled_or_unsupported {η : Type} (agent supported : Bool)
    (context : Option ResolveContext) (getName : String → String) (registry : JsObj η)
    (specifier : String) (nextResult : ResolvedModule)
    (recs : List (String × SpecifierRecord)) (esmShimHref : String)
    (exportNames : List String) (url : String) (nextLoadResult : LoadResult)
    (h : agent = false ∨ supported = false) :
    resolve η agent supported context getName registry specifier nextResult recs
        = { result := nextResult, registeredSpecifiers := recs, postedMessages := [] }
      ∧ load agent supported recs esmShimHref exportNames url nextLoadResult
        = nextLoadResult := by
  rcases h with h | h <;> subst h <;> constructor <;> simp [resolve, load]

/-- Witness for C5 at a concrete input: agent absent. -/
theorem passthrough_when_disabled_or_unsupported_witness :
    resolve Nat false true none (fun s => s) (pkgs Nat) "pg"
        { url := "file:///a/pg.js", format := "commonjs" } []
        = { result := { url := "file:///a/pg.js", format := "commonjs" },
            registeredSpecifiers := [], postedMessages := [] }
      ∧ load false true [] "file:///shim.mjs" ["q"] "file:///a/pg.js"
          { format := "module", source := "s", shortCircuit := false }
        = { format := "module", source := "s", shortCircuit := false } :=
  passthrough_when_disabled_or_unsupported false true none (fun s => s) (pkgs Nat) "pg"
    { url := "file:///a/pg.js", format := "commonjs" } [] "file:///shim.mjs"
    ["q"] "file:///a/pg.js" { format := "module", source := "s", shortCircuit := false }
    (Or.inl rfl)

/-- Claim C9: the context-manager factory returns the runtime-assisted
(AsyncLocal) implementation exactly when `feature_flag.new_async_context` is
set, the legacy implementation otherwise, and the choice is a function of that
one flag alone. -/
theorem createContextManager_selects_by_flag (c c2 : AgentConfig) :
    (createContextManager c = ContextManager.asyncLocalContextManager
        ↔ c.feature_flag.new_async_context = true)
      ∧ (createContextManager c = ContextManager.legacyContextManager
        ↔ c.feature_flag.new_async_context = false)
      ∧ (c.feature_flag.new_async_context = c2.feature_flag.new_async_context →
          createContextManager c = createContextManager c2) := by
  refine ⟨?_, ?_, ?_⟩
  · cases hb : c.feature_flag.new_async_context <;> simp [createContextManager, hb]
  · cases hb : c.feature_flag.new_async_context <;> simp [createContextManager, hb]
  · intro h
    unfold createContextManager
    rw [h]

/-- Witness for C9 at a concrete input: the flag set selects AsyncLocal. -/
theorem createContextManager_selects_by_flag_witness :
    createContextManager { feature_flag := { new_async_context := true } }
      = ContextManager.asyncLocalContextManager :=
  (createContextManager_selects_by_flag { feature_flag := { new_async_context := true } }
    { feature_flag := { new_async_context := true } }).1.mpr rfl

/-- Claim C1, counterexample: the claim says a resolved URL in the
live-mutation format (per the glossary, the format whose already-loaded
object can be mutated in place, i.e. `"commonjs"`) with at least one matching
Registry descriptor gets a Resolution Record marked "has instrumentation".
At this concrete input — a registered `"mydb"` descriptor, a `"commonjs"`
resolution of specifier `"mydb"`, and an empty record table — the resolve
hook stores no Resolution Record at all (it posts a message instead), so the
claim as stated is false. -/
theorem resolve_commonjs_records_nothing_counterexample :
    lookupInstrumentation
        (registerInstrumentation (some (⟨"mydb", some 0, none⟩ : InstrumentationOpts Nat))
          (pkgs Nat)) "mydb"
        = [⟨"mydb", some 0, none⟩]
      ∧ (resolve Nat true true none (fun s => s)
          (registerInstrumentation (some (⟨"mydb", some 0, none⟩ : InstrumentationOpts Nat))
            (pkgs Nat))
          "mydb" { url := "file:///a/mydb/index.js", format := "commonjs" }
          []).registeredSpecifiers = [] := by
  constructor <;> decide

/-- Claim C1 (amended): in the resolve phase, for every resolved URL with no
prior Resolution Record, if the module's format is the rewrite-required
format (`"module"`) — not the live-mutation one as the claim stated — and the
Registry holds at least one descriptor under the specifier's canonical
instrumentation name, then a Resolution Record marking that URL as "has
instrumentation" is stored. -/
theorem resolve_records_rewrite_format {η : Type} (context : Option ResolveContext)
    (getName : String → String) (registry : JsObj η) (specifier : String)
    (nextResult : ResolvedModule) (recs : List (String × SpecifierRecord))
    (hctx : isFromEsmLoader context = false)
    (hrec : assocGet recs nextResult.url = none)
    (hfmt : nextResult.format = "module")
    (hreg : lookupInstrumentation registry (getName specifier) ≠ []) :
    assocGet (resolve η true true context getName registry specifier nextResult
        recs).registeredSpecifiers nextResult.url
      = some { specifier := specifier, hasNrInstrumentation := true } := by
  have hsome : (getProp registry (getName specifier)).isSome = true := by
    unfold lookupInstrumentation at hreg
    cases hg : getProp registry (getName specifier) with
    | none => rw [hg] at hreg; simp at hreg
    | some v => rfl
  simp [resolve, hctx, hrec, hfmt, hsome, assocGet_assocSet_self]

/-- Witness for the amended C1 at a concrete input: an ESM specifier with a
registered descriptor gets its URL recorded as instrumented. -/
theorem resolve_records_rewrite_format_witness :
    assocGet (resolve Nat true true none (fun s => s)
        (registerInstrumentation (some (⟨"esmlib", some 0, none⟩ : InstrumentationOpts Nat))
          (pkgs Nat))
        "esmlib" { url := "file:///a/esmlib/index.mjs", format := "module" }
        []).registeredSpecifiers "file:///a/esmlib/index.mjs"
      = some { specifier := "esmlib", hasNrInstrumentation := true } :=
  resolve_records_rewrite_format none (fun s => s)
    (registerInstrumentation (some (⟨"esmlib", some 0, none⟩ : InstrumentationOpts Nat))
      (pkgs Nat))
    "esmlib" { url := "file:///a/esmlib/index.mjs", format := "module" } []
    rfl rfl rfl (by decide)

/-- Claim C2, counterexample: the claim says a resolved URL with no prior
Resolution Record whose format is the rewrite-required format (per the
glossary, the format immutable after load, i.e. `"module"`) triggers a posted
notification to the main thread. At this concrete input — a `"module"`
resolution with an empty record table — the resolve hook posts no message at
all (it records a Resolution Record path instead), so the claim as stated is
false. -/
theorem resolve_module_posts_nothing_counterexample :
    (resolve Nat true true none (fun s => s) (pkgs Nat) "esmpkg"
        { url := "file:///a/esmpkg/index.mjs", format := "module" }
        []).postedMessages = [] := by
  decide

/-- Claim C2 (amended): in the resolve phase, for every resolved URL with no
prior Resolution Record whose format is the live-mutation format
(`"commonjs"`) — not the rewrite-required one as the claim stated — the
interceptor posts a notification carrying the specifier, the resolved module
record, and the filesystem path, and returns the next resolver's result; the
Resolution Record table is left unchanged (the registration happens on the
main thread, fire-and-forget). -/
theorem resolve_commonjs_posts_notification {η : Type} (context : Option ResolveContext)
    (getName : String → String) (registry : JsObj η) (specifier : String)
    (nextResult : ResolvedModule) (recs : List (String × SpecifierRecord))
    (hctx : isFromEsmLoader context = false)
    (hrec : assocGet recs nextResult.url = none)
    (hfmt : nextResult.format = "commonjs") :
    (resolve η true true context getName registry specifier nextResult recs).postedMessages
        = [{ specifier := specifier, resolvedModule := nextResult,
             filePath := fileURLToPath nextResult.url }]
      ∧ (resolve η true true context getName registry specifier nextResult recs).result
        = nextResult
      ∧ (resolve η true true context getName registry specifier nextResult
          recs).registeredSpecifiers = recs := by
  refine ⟨?_, ?_, ?_⟩ <;> simp [resolve, hctx, hrec, hfmt]

/-- Witness for the amended C2 at a concrete input: a CommonJS resolution
posts the `{ specifier, resolvedModule, filePath }` notification. -/
theorem resolve_commonjs_posts_notification_witness :
    (resolve Nat true true none (fun s => s) (pkgs Nat) "pglib"
        { url := "file:///a/pglib/index.js", format := "commonjs" } []).postedMessages
        = [{ specifier := "pglib",
             resolvedModule := { url := "file:///a/pglib/index.js", format := "commonjs" },
             filePath := fileURLToPath "file:///a/pglib/index.js" }]
      ∧ (resolve Nat true true none (fun s => s) (pkgs Nat) "pglib"
          { url := "file:///a/pglib/index.js", format := "commonjs" } []).result
        = { url := "file:///a/pglib/index.js", format := "commonjs" }
      ∧ (resolve Nat true true none (fun s => s) (pkgs Nat) "pglib"
          { url := "file:///a/pglib/index.js", format := "commonjs" }
          []).registeredSpecifiers = [] :=
  resolve_commonjs_posts_notification none (fun s => s) (pkgs Nat) "pglib"
    { url := "file:///a/pglib/index.js", format := "commonjs" } [] rfl rfl rfl

/-- Claim C3: for every URL whose Resolution Record is marked "has
instrumentation", the `load` hook (agent active, runtime supported) returns a
short-circuit result whose format is the rewrite-required format `"module"`
and whose source is the rewritten text importing the Export Shim and the
original module, with exactly one forwarding export binding per export name
of the original module. -/
theorem load_returns_rewritten_shimmed_source
    (recs : List (String × SpecifierRecord)) (esmShimHref : String)
    (exportNames : List String) (url specifier : String) (nextLoadResult : LoadResult)
    (hrec : assocGet recs url
      = some { specifier := specifier, hasNrInstrumentation := true })
    (hnodup : exportNames.Nodup) :
    (load true true recs esmShimHref exportNames url nextLoadResult).format = "module"
      ∧ (load true true recs esmShimHref exportNames url nextLoadResult).shortCircuit = true
      ∧ (load true true recs esmShimHref exportNames url nextLoadResult).source
        = shimImportLine esmShimHref ++ originalImportLine url
          ++ wrapModuleCallLine specifier (fileURLToPath url)
          ++ String.intercalate "\n" (exportNames.map forwardingExport) ++ "\n  "
      ∧ ∀ p ∈ exportNames,
          (exportNames.map forwardingExport).count (forwardingExport p) = 1 := by
  refine ⟨?_, ?_, ?_, ?_⟩
  · simp [load, hrec]
  · simp [load, hrec]
  · simp [load, hrec, wrapEsmSource]
  · intro p hp
    rw [List.count_map_of_injective _ _ forwardingExport_injective]
    exact List.count_eq_one_of_mem hnodup hp

/-- Witness for C3 at a concrete input: a recorded ESM URL with two export
names; the load result is a `"module"`-format short-circuit, and the export
name `"connect"` has exactly one forwarding binding. -/
theorem load_returns_rewritten_shimmed_source_witness :
    (load true true [("file:///a/esmlib/index.mjs",
          { specifier := "esmlib", hasNrInstrumentation := true })]
        "file:///agent/lib/esm-shim.mjs" ["connect", "query"] "file:///a/esmlib/index.mjs"
        { format := "module", source := "orig", shortCircuit := false }).format = "module"
      ∧ (load true true [("file:///a/esmlib/index.mjs",
            { specifier := "esmlib", hasNrInstrumentation := true })]
          "file:///agent/lib/esm-shim.mjs" ["connect", "query"] "file:///a/esmlib/index.mjs"
          { format := "module", source := "orig", shortCircuit := false }).shortCircuit = true
      ∧ ((["connect", "query"].map forwardingExport).count (forwardingExport "connect") = 1) :=
  ⟨(load_returns_rewritten_shimmed_source
      [("file:///a/esmlib/index.mjs", { specifier := "esmlib", hasNrInstrumentation := true })]
      "file:///agent/lib/esm-shim.mjs" ["connect", "query"] "file:///a/esmlib/index.mjs"
      "esmlib" { format := "module", source := "orig", shortCircuit := false }
      (by decide) (by decide)).1,
   (load_returns_rewritten_shimmed_source
      [("file:///a/esmlib/index.mjs", { specifier := "esmlib", hasNrInstrumentation := true })]
      "file:///agent/lib/esm-shim.mjs" ["connect", "query"] "file:///a/esmlib/index.mjs"
      "esmlib" { format := "module", source := "orig", shortCircuit := false }
      (by decide) (by decide)).2.1,
   (load_returns_rewritten_shimmed_source
      [("file:///a/esmlib/index.mjs", { specifier := "esmlib", hasNrInstrumentation := true })]
      "file:///agent/lib/esm-shim.mjs" ["connect", "query"] "file:///a/esmlib/index.mjs"
      "esmlib" { format := "module", source := "orig", shortCircuit := false }
      (by decide) (by decide)).2.2.2 "connect" (by simp)⟩

/-- Claim C8: resolving the same URL twice yields the same "has
instrumentation" classification both times — the second run leaves the
Resolution Record table exactly as the first run left it — and for a URL
already present in the table the resolve hook skips all re-registration work,
returning the next resolver's result with the table unchanged and nothing
posted. -/
theorem resolve_idempotent_per_url {η : Type} (agent supported : Bool)
    (context : Option ResolveContext) (getName : String → String) (registry : JsObj η)
    (specifier : String) (nextResult : ResolvedModule)
    (recs : List (String × SpecifierRecord)) :
    (resolve η agent supported context getName registry specifier nextResult
        (resolve η agent supported context getName registry specifier nextResult
          recs).registeredSpecifiers).registeredSpecifiers
      = (resolve η agent supported context getName registry specifier nextResult
          recs).registeredSpecifiers
    ∧ hasInstrumentationClass
        (resolve η agent supported context getName registry specifier nextResult
          (resolve η agent supported context getName registry specifier nextResult
            recs).registeredSpecifiers).registeredSpecifiers nextResult.url
      = hasInstrumentationClass
        (resolve η agent supported context getName registry specifier nextResult
          recs).registeredSpecifiers nextResult.url
    ∧ ((assocGet recs nextResult.url).isSome = true →
        resolve η agent supported context getName registry specifier nextResult recs
          = { result := nextResult, registeredSpecifiers := recs,
              postedMessages := [] }) := by
  have hmain :
      (resolve η agent supported context getName registry specifier nextResult
        (resolve η agent supported context getName registry specifier nextResult
          recs).registeredSpecifiers).registeredSpecifiers
      = (resolve η agent supported context getName registry specifier nextResult
          recs).registeredSpecifiers := by
    cases hg : (!agent || !supported || isFromEsmLoader context) with
    | true => simp [resolve, hg]
    | false =>
      cases h1 : (assocGet recs nextResult.url).isSome with
      | true => simp [resolve, hg, h1]
      | false =>
        by_cases hm : nextResult.format = "module"
        · cases hr : (getProp registry (getName specifier)).isSome with
          | true =>
            have hset := assocGet_assocSet_self recs nextResult.url
              { specifier := specifier, hasNrInstrumentation := true }
            simp [resolve, hg, h1, hm, hr, hset]
          | false => simp [resolve, hg, h1, hm, hr]
        · by_cases hc : nextResult.format = "commonjs"
          · simp [resolve, hg, h1, hm, hc]
          · simp [resolve, hg, h1, hm, hc]
  have hskip : (assocGet recs nextResult.url).isSome = true →
      resolve η agent supported context getName registry specifier nextResult recs
        = { result := nextResult, registeredSpecifiers := recs, postedMessages := [] } := by
    intro h1
    cases hg : (!agent || !supported || isFromEsmLoader context) with
    | true => simp [resolve, hg]
    | false => simp [resolve, hg, h1]
  exact ⟨hmain, by rw [hmain], hskip⟩

/-- Witness for C8 at a concrete input: a URL already present in the record
table is skipped — the resolve hook returns the next result with the table
unchanged. -/
theorem resolve_idempotent_per_url_witness :
    resolve Nat true true none (fun s => s) (pkgs Nat) "esmlib"
        { url := "file:///a/esmlib/index.mjs", format := "module" }
        [("file:///a/esmlib/index.mjs",
          { specifier := "esmlib", hasNrInstrumentation := true })]
      = { result := { url := "file:///a/esmlib/index.mjs", format := "module" },
          registeredSpecifiers := [("file:///a/esmlib/index.mjs",
            { specifier := "esmlib", hasNrInstrumentation := true })],
          postedMessages := [] } :=
  (resolve_idempotent_per_url true true none (fun s => s) (pkgs Nat) "esmlib"
    { url := "file:///a/esmlib/index.mjs", format := "module" }
    [("file:///a/esmlib/index.mjs",
      { specifier := "esmlib", hasNrInstrumentation := true })]).2.2 (by decide)

/-- Claim C6, counterexample: the claim says that after `register(d)` the
lookup for `d.moduleName` contains `d` exactly once. Registering the same
valid descriptor twice (the code appends unconditionally) leaves two copies,
so at this concrete input the claim as stated is false. -/
theorem register_same_descriptor_twice_counterexample :
    hasValidRegisterOptions
        (some (⟨"db-client", some 0, none⟩ : InstrumentationOpts Nat)) = true
      ∧ (lookupInstrumentation
          (registerInstrumentation
            (some (⟨"db-client", some 0, none⟩ : InstrumentationOpts Nat))
            (registerInstrumentation
              (some (⟨"db-client", some 0, none⟩ : InstrumentationOpts Nat)) (pkgs Nat)))
          "db-client").count (⟨"db-client", some 0, none⟩ : InstrumentationOpts Nat)
        = 2 := by
  constructor <;> decide

/-- Claim C6 (amended): for every valid descriptor `d`, `register(d)` appends
exactly one copy of `d` after the previously registered descriptors for
`d.moduleName`, leaves every other module name unchanged, and — provided `d`
was not already among the descriptors registered under that name — the lookup
afterwards contains `d` exactly once. -/
theorem register_valid_appends_exactly_one_copy {η : Type} [DecidableEq η]
    (p : JsObj η) (d : InstrumentationOpts η)
    (hwf : wfRegistry p = true) (hv : hasValidRegisterOptions (some d) = true) :
    lookupInstrumentation (registerInstrumentation (some d) p) d.moduleName
        = lookupInstrumentation p d.moduleName ++ [d]
      ∧ (∀ name, name ≠ d.moduleName →
          lookupInstrumentation (registerInstrumentation (some d) p) name
            = lookupInstrumentation p name)
      ∧ (d ∉ lookupInstrumentation p d.moduleName →
          (lookupInstrumentation (registerInstrumentation (some d) p) d.moduleName).count d
            = 1) := by
  have happ := registerInstrumentation_append p d hwf hv
  refine ⟨happ, ?_, ?_⟩
  · intro name hne
    exact lookupInstrumentation_other (some d) p name
      (fun d2 h2 => by cases h2; exact fun hh => hne hh.symm)
  · intro hnm
    rw [happ, List.count_append, List.count_eq_zero.mpr hnm]
    simp

/-- Witness for the amended C6 at a concrete input: registering a valid
descriptor on the fresh table appends it under its module name. -/
theorem register_valid_appends_exactly_one_copy_witness :
    lookupInstrumentation
        (registerInstrumentation (some (⟨"redis", some 1, none⟩ : InstrumentationOpts Nat))
          (pkgs Nat)) "redis"
      = lookupInstrumentation (pkgs Nat) "redis" ++ [⟨"redis", some 1, none⟩] :=
  (register_valid_appends_exactly_one_copy (pkgs Nat) ⟨"redis", some 1, none⟩
    (by decide) (by decide)).1

/-- Claim C7: for every invalid descriptor — absent options, a missing/empty
`moduleName`, or neither hook present — `register` leaves the registry table
completely unchanged (the embedding is a total function, so no exception is
raised). -/
theorem register_invalid_is_noop {η : Type} (opts : Option (InstrumentationOpts η))
    (p : JsObj η)
    (h : opts = none ∨ ∃ o, opts = some o ∧
        (o.moduleName = "" ∨ (o.onRequire = none ∧ o.onResolved = none))) :
    registerInstrumentation opts p = p := by
  apply registerInstrumentation_invalid
  rcases h with h | ⟨o, rfl, h⟩
  · subst h; rfl
  · rcases h with h | ⟨h1, h2⟩
    · simp [hasValidRegisterOptions, h]
    · by_cases hm : o.moduleName = "" <;> simp [hasValidRegisterOptions, hm, h1, h2]

/-- Witness for C7 at a concrete input: an empty module name is dropped. -/
theorem register_invalid_is_noop_witness :
    registerInstrumentation (some (⟨"", some 0, none⟩ : InstrumentationOpts Nat)) (pkgs Nat)
      = pkgs Nat :=
  register_invalid_is_noop _ _ (Or.inr ⟨⟨"", some 0, none⟩, rfl, Or.inl rfl⟩)

/-- Claim C10: the registry table is created without a prototype
(`Object.create(null)`), so every module name that was never validly
registered — including `Object.prototype` property names such as
`"toString"`, `"constructor"` and `"hasOwnProperty"` — looks up to no
descriptors, and registering a valid descriptor under such a name stores and
retrieves it like any other key. -/
theorem registry_has_no_prototype_lookup {η : Type}
    (calls : List (Option (InstrumentationOpts η))) (name : String)
    (d : InstrumentationOpts η)
    (hun : ∀ d2, some d2 ∈ calls → hasValidRegisterOptions (some d2) = true →
        d2.moduleName ≠ name) :
    lookupInstrumentation (buildRegistry η calls) name = []
      ∧ (hasValidRegisterOptions (some d) = true → d.moduleName = name →
          lookupInstrumentation (registerInstrumentation (some d) (buildRegistry η calls))
            name = [d]) := by
  have hnone := buildRegistry_unregistered calls name hun
  have hlook : lookupInstrumentation (buildRegistry η calls) name = [] := by
    unfold lookupInstrumentation
    rw [hnone]
  refine ⟨hlook, ?_⟩
  intro hv heq
  have happ := registerInstrumentation_append (buildRegistry η calls) d
    (buildRegistry_wf calls) hv
  rw [heq] at happ
  rw [happ, hlook]
  rfl

/-- Witness for C10 at a concrete input: on the fresh table, `"toString"`
looks up to no descriptors, and a valid descriptor registered under
`"toString"` is stored and retrieved normally. -/
theorem registry_has_no_prototype_lookup_witness :
    lookupInstrumentation (buildRegistry Nat []) "toString" = []
      ∧ lookupInstrumentation
          (registerInstrumentation
            (some (⟨"toString", some 0, none⟩ : InstrumentationOpts Nat))
            (buildRegistry Nat [])) "toString" = [⟨"toString", some 0, none⟩] :=
  ⟨(registry_has_no_prototype_lookup [] "toString" ⟨"toString", some 0, none⟩
      (by simp)).1,
   (registry_has_no_prototype_lookup [] "toString" ⟨"toString", some 0, none⟩
      (by simp)).2 (by decide) rfl⟩
